import Mathlib

/-!
Verification of the loan amortization engine and exporters of
`telegram_loan_bot.py`.

The Python code works on IEEE doubles; the embedding models the numeric
values as exact rationals and Python's `round(x, 2)` as rounding of a
rational to the nearest multiple of 1/100 (`round2` below).  All schedule
quantities the program produces are such multiples, so the model is exact
on them.  Fallible functions (`annuity_payment`, `build_schedule`, which
raise `ValueError` on a non-positive term) are modelled with `Except`.
-/

set_option allowUnsafeReducibility true in
attribute [semireducible] Rat.add Rat.sub Rat.mul Rat.inv

namespace LoanBot

/-- Python's `round(x, 2)`: round to the nearest multiple of 1/100.
Stated via `Int.floor` so that it evaluates by kernel reduction; the lemma
`round2_eq` below identifies it with rounding to the nearest integer of
`q * 100`.  (Ties, where Python uses round-half-to-even on the underlying
double, round upward here; no result in this file depends on a tie.) -/
def round2 (q : ℚ) : ℚ := (⌊q * 100 + 1 / 2⌋ : ℤ) / 100

/-- A rational that is a whole number of cents, i.e. a value Python's
`round(x, 2)` can return; every monetary quantity of the schedule is
such a value. -/
def TwoDec (q : ℚ) : Prop := ∃ z : ℤ, q = (z : ℚ) / 100

instance {ε α : Type} [DecidableEq ε] [DecidableEq α] : DecidableEq (Except ε α) :=
  fun a b =>
    match a, b with
    | .error x, .error y =>
      if h : x = y then .isTrue (by rw [h])
      else .isFalse (fun hc => h (by cases hc; rfl))
    | .error _, .ok _ => .isFalse (fun hc => by cases hc)
    | .ok _, .error _ => .isFalse (fun hc => by cases hc)
    | .ok x, .ok y =>
      if h : x = y then .isTrue (by rw [h])
      else .isFalse (fun hc => h (by cases hc; rfl))

/-- Error message raised by `annuity_payment` for a non-positive term
(source line 60). -/
def invalidTermMsg : String := "Срок в месяцах должен быть > 0"

/-- `annuity_payment(principal, annual_rate_percent, months)`
(source lines 57-64): monthly rate `r = annual_rate_percent / 100 / 12`;
raises for `months <= 0`; returns `round(principal / months, 2)` when
`r == 0`, else the rounded annuity formula
`principal * r / (1 - (1 + r) ** (-months))`. -/
def annuity_payment (principal annual_rate_percent : ℚ) (months : ℤ) : Except String ℚ :=
  if months ≤ 0 then .error invalidTermMsg
  else if annual_rate_percent / 100 / 12 = 0 then
    .ok (round2 (principal / (months : ℚ)))
  else
    .ok (round2 (principal * (annual_rate_percent / 100 / 12) /
          (1 - (1 + annual_rate_percent / 100 / 12) ^ (-months))))

/-- One row of the amortization schedule (source lines 88-96): month
index, payment, interest part, principal part, and the displayed
remaining balance (`max(balance, 0.0)`). -/
structure ScheduleRow where
  month : ℕ
  payment : ℚ
  interest : ℚ
  principal_part : ℚ
  balance : ℚ
deriving DecidableEq

/-- The loop body of `build_schedule` (source lines 75-96): iterate the
remaining `k` periods starting at month `m` with the given running
balance.  One period remaining means `m == months` in the source, the
final period, where the principal part is forced to the rounded
remaining balance and the payment is recomputed as principal part plus
interest; every earlier period takes the `else` branch. -/
def scheduleRowsAux (r payment : ℚ) : ℕ → ℕ → ℚ → List ScheduleRow
  | 0, _, _ => []
  | 1, m, balance =>
    let interest := round2 (balance * r)
    let pp := round2 balance
    [⟨m, round2 (pp + interest), interest, pp, max (round2 (balance - pp)) 0⟩]
  | k + 2, m, balance =>
    let interest := round2 (balance * r)
    let pp := round2 (payment - interest)
    ⟨m, payment, interest, pp, max (round2 (balance - pp)) 0⟩ ::
      scheduleRowsAux r payment (k + 1) (m + 1) (round2 (balance - pp))

/-- The summary dict of `build_schedule` (source lines 98-105). -/
structure ScheduleSummary where
  principal : ℚ
  rate : ℚ
  months : ℤ
  monthlyPayment : ℚ
  totalInterest : ℚ
  totalPaid : ℚ
deriving DecidableEq

/-- `build_schedule(principal, annual_rate_percent, months)`
(source lines 66-106): computes the annuity payment (propagating its
error), runs the period loop from month 1 with balance `principal`, and
returns the rows together with the summary.  The accumulated
`total_interest` equals the sum of the per-row interest values. -/
def build_schedule (principal rate : ℚ) (months : ℤ) :
    Except String (List ScheduleRow × ScheduleSummary) :=
  (annuity_payment principal rate months).map (fun payment =>
    let rows := scheduleRowsAux (rate / 100 / 12) payment months.toNat 1 principal
    (rows,
      { principal := round2 principal,
        rate := rate,
        months := months,
        monthlyPayment := payment,
        totalInterest := round2 ((rows.map (fun row => row.interest)).sum),
        totalPaid := round2 ((rows.map (fun row => row.interest)).sum + principal) }))

/-- Extract the value of an `Except`, with a default for the error case. -/
def exceptGet {α : Type} (e : Except String α) (dflt : α) : α :=
  match e with
  | .ok a => a
  | .error _ => dflt

/-- The computed monthly payment, defaulting to 0 on error. -/
def getPayment (p rate : ℚ) (n : ℤ) : ℚ := exceptGet (annuity_payment p rate n) 0

/-- The rows of the computed schedule, defaulting to `[]` on error. -/
def getRows (p rate : ℚ) (n : ℤ) : List ScheduleRow :=
  exceptGet ((build_schedule p rate n).map Prod.fst) []

/-- The computed summary, defaulting to the all-zero summary on error. -/
def getSummary (p rate : ℚ) (n : ℤ) : ScheduleSummary :=
  exceptGet ((build_schedule p rate n).map Prod.snd) ⟨0, 0, 0, 0, 0, 0⟩

/-- The balance at the start of the final period when `k` periods remain
and the current balance is `b`: repeatedly apply the non-final balance
update `balance = round(balance - round(payment - interest, 2), 2)` of
source lines 76-83. -/
def balBefore (r payment : ℚ) : ℕ → ℚ → ℚ
  | 0, b => b
  | 1, b => b
  | k + 2, b =>
      balBefore r payment (k + 1) (round2 (b - round2 (payment - round2 (b * r))))

/-- The number of cents of a rational whose denominator divides 100
(every quantity the schedule stores is such a value). -/
def ratCents (q : ℚ) : ℤ := q.num * (100 / (q.den : ℤ))

/-- Number of fractional decimal digits of a rational with a finite
decimal expansion: the least `e` with `q * 10 ^ e` integral (searched up
to the given fuel; doubles never need more than 17 significant digits). -/
def fracDigits : ℕ → ℚ → ℕ
  | 0, _ => 0
  | fuel + 1, q => if q.den = 1 then 0 else fracDigits fuel (q * 10) + 1

/-- Zero-padded `e`-digit decimal rendering of `n`. -/
def padRepr : ℕ → ℕ → String
  | 0, _ => ""
  | e + 1, n => padRepr e (n / 10) ++ Nat.repr (n % 10)

/-- Shortest decimal rendering of a nonnegative rational with a finite
decimal expansion, with at least one fractional digit kept — the shape
Python's `str` gives for a float holding such a value
(`str(1000.0) == "1000.0"`, `str(8884.88) == "8884.88"`,
`str(12.345) == "12.345"`).  Because `fracDigits` is minimal, the last
emitted fraction digit is nonzero, so no trailing zeros appear. -/
def decRepr (q : ℚ) : String :=
  if fracDigits 30 q = 0 then Nat.repr q.num.toNat ++ ".0"
  else
    Nat.repr ((q * 10 ^ fracDigits 30 q).num.toNat / 10 ^ fracDigits 30 q) ++ "." ++
      padRepr (fracDigits 30 q) ((q * 10 ^ fracDigits 30 q).num.toNat % 10 ^ fracDigits 30 q)

/-- Python's default `str` rendering of a float holding a value with a
short exact decimal expansion (every value the program writes into the
delimited export, including a raw user-entered rate such as 12.345):
sign, integer part, shortest fraction. -/
def float_str (q : ℚ) : String :=
  if q < 0 then "-" ++ decRepr (-q) else decRepr q

/-- Decimal rendering of a nonnegative amount given in cents with the
fraction padded to exactly two digits. -/
def cents2Repr (c : ℕ) : String :=
  Nat.repr (c / 100) ++ "." ++ Nat.repr (c / 10 % 10) ++ Nat.repr (c % 10)

/-- Python's `f"{x:.2f}"` rendering used by the contract document
(source lines 220-223): always exactly two decimal places. -/
def fixed2 (q : ℚ) : String :=
  if q < 0 then "-" ++ cents2Repr (ratCents (-q)).toNat
  else cents2Repr (ratCents q).toNat

/-- A csv field under Python's default `QUOTE_MINIMAL`: quoted (with
doubled inner quotes) only when it contains the `;` delimiter, a quote
or a line break; every field the program emits is left unquoted. -/
def csvField (f : String) : String :=
  if f.contains ';' || f.contains '\"' || f.contains '\n' || f.contains '\r'
  then "\"" ++ f.replace "\"" "\"\"" ++ "\""
  else f

/-- One `writer.writerow(...)` call: fields joined by the `;` delimiter
and terminated by the csv module's default `"\r\n"`. -/
def csv_record_line (fields : List String) : String :=
  String.intercalate ";" (fields.map csvField) ++ "\r\n"

/-- The record list written by `schedule_csv_bytes` (source lines
111-120): six labeled summary rows, one empty row, the column-header
row, then one row per period. -/
def schedule_csv_records (rows : List ScheduleRow) (s : ScheduleSummary) :
    List (List String) :=
  [["Сумма кредита", float_str s.principal],
   ["Ставка, % годовых", float_str s.rate],
   ["Срок, мес", Int.repr s.months],
   ["Ежемесячный платеж", float_str s.monthlyPayment],
   ["Итого процентов", float_str s.totalInterest],
   ["Итого выплат", float_str s.totalPaid],
   [],
   ["Месяц", "Платеж", "Проценты", "Тело", "Остаток"]] ++
  rows.map (fun row =>
    [Nat.repr row.month, float_str row.payment, float_str row.interest,
     float_str row.principal_part, float_str row.balance])

/-- `schedule_csv_bytes(rows, summary)` (source lines 108-121): the
records encoded with `utf-8-sig`, i.e. the byte-order mark followed by
the csv text. -/
def schedule_csv_bytes (rows : List ScheduleRow) (s : ScheduleSummary) : String :=
  "\uFEFF" ++ String.join ((schedule_csv_records rows s).map csv_record_line)

/-- The amortization table of `make_contract_pdf_bytes` (source lines
216-224): a header row, then one row per period with every amount
formatted to exactly two decimals. -/
def contract_table_data (rows : List ScheduleRow) : List (List String) :=
  ["Mes", "Pago", "Interés", "Principal", "Saldo"] ::
  rows.map (fun row =>
    [Nat.repr row.month, fixed2 row.payment, fixed2 row.interest,
     fixed2 row.principal_part, fixed2 row.balance])

/-- A list of amounts is (weakly) decreasing. -/
def Nonincreasing (l : List ℚ) : Prop := List.Chain' (· ≥ ·) l

/-! ## Arithmetic of `round2` -/

theorem round2_eq (q : ℚ) : round2 q = (round (q * 100) : ℤ) / 100 := by
  rw [round2, round_eq]

theorem twoDec_round2 (q : ℚ) : TwoDec (round2 q) := ⟨⌊q * 100 + 1 / 2⌋, rfl⟩

theorem TwoDec.add {a b : ℚ} (ha : TwoDec a) (hb : TwoDec b) : TwoDec (a + b) := by
  obtain ⟨x, rfl⟩ := ha
  obtain ⟨y, rfl⟩ := hb
  exact ⟨x + y, by push_cast; ring⟩

theorem TwoDec.sub {a b : ℚ} (ha : TwoDec a) (hb : TwoDec b) : TwoDec (a - b) := by
  obtain ⟨x, rfl⟩ := ha
  obtain ⟨y, rfl⟩ := hb
  exact ⟨x - y, by push_cast; ring⟩

theorem round2_twoDec {q : ℚ} (h : TwoDec q) : round2 q = q := by
  obtain ⟨z, rfl⟩ := h
  rw [round2_eq]
  rw [show (z : ℚ) / 100 * 100 = (z : ℚ) by field_simp]
  rw [round_intCast]

theorem round2_sub_twoDec (a : ℚ) {c : ℚ} (h : TwoDec c) :
    round2 (a - c) = round2 a - c := by
  obtain ⟨z, rfl⟩ := h
  rw [round2_eq, round2_eq]
  rw [show (a - (z : ℚ) / 100) * 100 = a * 100 - z by field_simp]
  rw [round_sub_int]
  push_cast
  ring

theorem round2_self_sub (b : ℚ) : round2 (b - round2 b) = 0 := by
  rw [round2_sub_twoDec b (twoDec_round2 b), sub_self]

theorem round2_mono : Monotone round2 := by
  intro a b hab
  unfold round2
  have h1 : ⌊a * 100 + 1 / 2⌋ ≤ ⌊b * 100 + 1 / 2⌋ := Int.floor_le_floor (by linarith)
  have h2 : ((⌊a * 100 + 1 / 2⌋ : ℤ) : ℚ) ≤ ((⌊b * 100 + 1 / 2⌋ : ℤ) : ℚ) := by
    exact_mod_cast h1
  linarith

theorem round2_zero : round2 0 = 0 := by
  unfold round2
  norm_num

theorem round2_nonneg {q : ℚ} (h : 0 ≤ q) : 0 ≤ round2 q := by
  have := round2_mono h
  rwa [round2_zero] at this

theorem abs_round2_sub_le (q : ℚ) : |round2 q - q| ≤ 1 / 200 := by
  rw [round2_eq]
  have h := abs_sub_round (q * 100)
  rw [abs_sub_comm] at h
  rw [show (round (q * 100) : ℚ) / 100 - q = ((round (q * 100) : ℚ) - q * 100) / 100 by ring]
  rw [abs_div, abs_of_pos (show (0 : ℚ) < 100 by norm_num)]
  linarith

/-! ## Structure of the schedule rows -/

theorem length_scheduleRowsAux (r pay : ℚ) :
    ∀ (k m : ℕ) (b : ℚ), (scheduleRowsAux r pay k m b).length = k
  | 0, _, _ => rfl
  | 1, _, _ => rfl
  | k + 2, m, b => by
      simp only [scheduleRowsAux, List.length_cons]
      rw [length_scheduleRowsAux r pay (k + 1)]

theorem scheduleRowsAux_ne_nil (r pay : ℚ) (k m : ℕ) (b : ℚ) :
    scheduleRowsAux r pay (k + 1) m b ≠ [] := by
  intro h
  have hlen := length_scheduleRowsAux r pay (k + 1) m b
  rw [h] at hlen
  simp at hlen

theorem getLast?_cons_of_ne_nil {α : Type} (a : α) {l : List α} (h : l ≠ []) :
    (a :: l).getLast? = l.getLast? := by
  cases l with
  | nil => exact absurd rfl h
  | cons x xs => exact List.getLast?_cons_cons ..

theorem sum_principal_scheduleRowsAux (r pay : ℚ) :
    ∀ (k m : ℕ) (b : ℚ),
      ((scheduleRowsAux r pay (k + 1) m b).map (fun row => row.principal_part)).sum =
        round2 b
  | 0, m, b => by
      simp [scheduleRowsAux]
  | k + 1, m, b => by
      have ih := sum_principal_scheduleRowsAux r pay k (m + 1)
        (round2 (b - round2 (pay - round2 (b * r))))
      simp only [scheduleRowsAux, List.map_cons, List.sum_cons]
      rw [ih]
      rw [round2_twoDec (twoDec_round2 (b - round2 (pay - round2 (b * r))))]
      rw [round2_sub_twoDec b (twoDec_round2 (pay - round2 (b * r)))]
      ring

theorem mem_dropLast_scheduleRowsAux (r pay : ℚ) :
    ∀ (k m : ℕ) (b : ℚ) (row : ScheduleRow),
      row ∈ (scheduleRowsAux r pay k m b).dropLast →
        row.payment = pay ∧ row.principal_part = round2 (pay - row.interest) ∧
          TwoDec row.interest
  | 0, m, b, row => by
      intro h
      simp [scheduleRowsAux] at h
  | 1, m, b, row => by
      intro h
      simp [scheduleRowsAux] at h
  | k + 2, m, b, row => by
      intro h
      rw [show scheduleRowsAux r pay (k + 2) m b =
            ⟨m, pay, round2 (b * r), round2 (pay - round2 (b * r)),
              max (round2 (b - round2 (pay - round2 (b * r)))) 0⟩ ::
            scheduleRowsAux r pay (k + 1) (m + 1)
              (round2 (b - round2 (pay - round2 (b * r)))) from rfl] at h
      rw [List.dropLast_cons_of_ne_nil (scheduleRowsAux_ne_nil r pay k (m + 1) _)] at h
      rcases List.mem_cons.mp h with h0 | h1
      · subst h0
        exact ⟨rfl, rfl, twoDec_round2 _⟩
      · exact mem_dropLast_scheduleRowsAux r pay (k + 1) (m + 1) _ row h1

theorem getLast_scheduleRowsAux (r pay : ℚ) :
    ∀ (k m : ℕ) (b : ℚ),
      (scheduleRowsAux r pay (k + 1) m b).getLast? =
        some ⟨m + k,
          round2 (round2 (balBefore r pay (k + 1) b) +
            round2 (balBefore r pay (k + 1) b * r)),
          round2 (balBefore r pay (k + 1) b * r),
          round2 (balBefore r pay (k + 1) b),
          max (round2 (balBefore r pay (k + 1) b - round2 (balBefore r pay (k + 1) b))) 0⟩
  | 0, m, b => by
      simp [scheduleRowsAux, balBefore]
  | k + 1, m, b => by
      rw [show scheduleRowsAux r pay (k + 1 + 1) m b =
            ⟨m, pay, round2 (b * r), round2 (pay - round2 (b * r)),
              max (round2 (b - round2 (pay - round2 (b * r)))) 0⟩ ::
            scheduleRowsAux r pay (k + 1) (m + 1)
              (round2 (b - round2 (pay - round2 (b * r)))) from rfl]
      rw [getLast?_cons_of_ne_nil _ (scheduleRowsAux_ne_nil r pay k (m + 1) _)]
      rw [getLast_scheduleRowsAux r pay k (m + 1)
        (round2 (b - round2 (pay - round2 (b * r))))]
      rw [show balBefore r pay (k + 1)
            (round2 (b - round2 (pay - round2 (b * r)))) =
          balBefore r pay (k + 1 + 1) b from rfl]
      rw [show m + 1 + k = m + (k + 1) from by omega]

theorem balance_nonneg_scheduleRowsAux (r pay : ℚ) :
    ∀ (k m : ℕ) (b : ℚ) (row : ScheduleRow),
      row ∈ scheduleRowsAux r pay k m b → 0 ≤ row.balance
  | 0, m, b, row => by
      intro h
      simp [scheduleRowsAux] at h
  | 1, m, b, row => by
      intro h
      simp [scheduleRowsAux] at h
      subst h
      exact le_max_right _ _
  | k + 2, m, b, row => by
      intro h
      rw [show scheduleRowsAux r pay (k + 2) m b =
            ⟨m, pay, round2 (b * r), round2 (pay - round2 (b * r)),
              max (round2 (b - round2 (pay - round2 (b * r)))) 0⟩ ::
            scheduleRowsAux r pay (k + 1) (m + 1)
              (round2 (b - round2 (pay - round2 (b * r)))) from rfl] at h
      rcases List.mem_cons.mp h with h0 | h1
      · subst h0
        exact le_max_right _ _
      · exact balance_nonneg_scheduleRowsAux r pay (k + 1) (m + 1) _ row h1

theorem interest_zero_scheduleRowsAux (pay : ℚ) :
    ∀ (k m : ℕ) (b : ℚ) (row : ScheduleRow),
      row ∈ scheduleRowsAux 0 pay k m b → row.interest = 0
  | 0, m, b, row => by
      intro h
      simp [scheduleRowsAux] at h
  | 1, m, b, row => by
      intro h
      simp [scheduleRowsAux] at h
      subst h
      exact round2_zero
  | k + 2, m, b, row => by
      intro h
      rw [show scheduleRowsAux 0 pay (k + 2) m b =
            ⟨m, pay, round2 (b * 0), round2 (pay - round2 (b * 0)),
              max (round2 (b - round2 (pay - round2 (b * 0)))) 0⟩ ::
            scheduleRowsAux 0 pay (k + 1) (m + 1)
              (round2 (b - round2 (pay - round2 (b * 0)))) from rfl] at h
      rcases List.mem_cons.mp h with h0 | h1
      · subst h0
        show round2 (b * 0) = 0
        rw [mul_zero, round2_zero]
      · exact interest_zero_scheduleRowsAux pay (k + 1) (m + 1) _ row h1

theorem chain_balance_scheduleRowsAux (r pay : ℚ) (hr : 0 ≤ r) (hpay : TwoDec pay) :
    ∀ (k m : ℕ) (b : ℚ), TwoDec b → round2 (b * r) ≤ pay →
      List.Chain' (· ≥ ·) ((scheduleRowsAux r pay k m b).map (fun row => row.balance)) ∧
      (∀ row : ScheduleRow, (scheduleRowsAux r pay k m b).head? = some row →
        row.balance ≤ max b 0)
  | 0, m, b => by
      intro hb hint
      refine ⟨by simp [scheduleRowsAux], ?_⟩
      intro row h
      simp [scheduleRowsAux] at h
  | 1, m, b => by
      intro hb hint
      refine ⟨by simp [scheduleRowsAux], ?_⟩
      intro row h
      simp [scheduleRowsAux] at h
      subst h
      show max (round2 (b - round2 b)) 0 ≤ max b 0
      rw [round2_self_sub, max_self]
      exact le_max_right b 0
  | k + 2, m, b => by
      intro hb hint
      have hppEq : round2 (pay - round2 (b * r)) = pay - round2 (b * r) :=
        round2_twoDec (hpay.sub (twoDec_round2 (b * r)))
      have hpp0 : 0 ≤ round2 (pay - round2 (b * r)) := by
        rw [hppEq]
        linarith
      have hb2Eq : round2 (b - round2 (pay - round2 (b * r))) =
          b - round2 (pay - round2 (b * r)) := by
        rw [round2_sub_twoDec b (twoDec_round2 (pay - round2 (b * r))), round2_twoDec hb]
      have hb2le : round2 (b - round2 (pay - round2 (b * r))) ≤ b := by
        rw [hb2Eq]
        linarith
      have hint2 : round2 (round2 (b - round2 (pay - round2 (b * r))) * r) ≤ pay := by
        calc round2 (round2 (b - round2 (pay - round2 (b * r))) * r) ≤ round2 (b * r) :=
              round2_mono (mul_le_mul_of_nonneg_right hb2le hr)
          _ ≤ pay := hint
      have ih := chain_balance_scheduleRowsAux r pay hr hpay (k + 1) (m + 1)
        (round2 (b - round2 (pay - round2 (b * r)))) (twoDec_round2 _) hint2
      have hunfold : scheduleRowsAux r pay (k + 2) m b =
          ⟨m, pay, round2 (b * r), round2 (pay - round2 (b * r)),
            max (round2 (b - round2 (pay - round2 (b * r)))) 0⟩ ::
          scheduleRowsAux r pay (k + 1) (m + 1)
            (round2 (b - round2 (pay - round2 (b * r)))) := rfl
      constructor
      · rw [hunfold, List.map_cons, List.chain'_cons']
        refine ⟨?_, ih.1⟩
        intro y hy
        rw [Option.mem_def, List.head?_map] at hy
        obtain ⟨rowH, hrowH, hyEq⟩ := Option.map_eq_some'.mp hy
        have := ih.2 rowH hrowH
        subst hyEq
        calc rowH.balance ≤ max (round2 (b - round2 (pay - round2 (b * r)))) 0 := this
          _ = (⟨m, pay, round2 (b * r), round2 (pay - round2 (b * r)),
                max (round2 (b - round2 (pay - round2 (b * r)))) 0⟩ :
                  ScheduleRow).balance := rfl
      · intro row h
        rw [hunfold, List.head?_cons] at h
        have hrow := Option.some.inj h
        subst hrow
        show max (round2 (b - round2 (pay - round2 (b * r)))) 0 ≤ max b 0
        exact max_le_max hb2le (le_refl 0)

/-! ## Unfolding the engine entry points -/

theorem annuity_payment_eq_ok (p rate : ℚ) {n : ℤ} (hn : 1 ≤ n) :
    annuity_payment p rate n = .ok (getPayment p rate n) := by
  have h : ¬ n ≤ 0 := by omega
  unfold getPayment exceptGet annuity_payment
  by_cases hrz : rate / 100 / 12 = 0 <;> simp [h, hrz]

theorem twoDec_getPayment (p rate : ℚ) {n : ℤ} (hn : 1 ≤ n) :
    TwoDec (getPayment p rate n) := by
  have h : ¬ n ≤ 0 := by omega
  unfold getPayment exceptGet annuity_payment
  by_cases hrz : rate / 100 / 12 = 0 <;> simp [h, hrz] <;> exact twoDec_round2 _

theorem getPayment_zero_rate (p rate : ℚ) {n : ℤ} (hrz : rate / 100 / 12 = 0)
    (hn : 1 ≤ n) : getPayment p rate n = round2 (p / (n : ℚ)) := by
  have h : ¬ n ≤ 0 := by omega
  unfold getPayment exceptGet annuity_payment
  simp [h, hrz]

theorem getPayment_pos_rate (p rate : ℚ) {n : ℤ} (hrz : rate / 100 / 12 ≠ 0)
    (hn : 1 ≤ n) :
    getPayment p rate n =
      round2 (p * (rate / 100 / 12) / (1 - (1 + rate / 100 / 12) ^ (-n))) := by
  have h : ¬ n ≤ 0 := by omega
  unfold getPayment exceptGet annuity_payment
  simp [h, hrz]

theorem getRows_eq (p rate : ℚ) {n : ℤ} (hn : 1 ≤ n) :
    getRows p rate n =
      scheduleRowsAux (rate / 100 / 12) (getPayment p rate n) n.toNat 1 p := by
  unfold getRows build_schedule
  rw [annuity_payment_eq_ok p rate hn]
  rfl

theorem getSummary_eq (p rate : ℚ) {n : ℤ} (hn : 1 ≤ n) :
    getSummary p rate n =
      { principal := round2 p,
        rate := rate,
        months := n,
        monthlyPayment := getPayment p rate n,
        totalInterest := round2 (((getRows p rate n).map (fun row => row.interest)).sum),
        totalPaid := round2 (((getRows p rate n).map (fun row => row.interest)).sum + p) } := by
  unfold getSummary build_schedule
  rw [annuity_payment_eq_ok p rate hn, getRows_eq p rate hn]
  rfl

theorem first_interest_le_getPayment (p rate : ℚ) {n : ℤ} (hp : 0 < p) (hr : 0 ≤ rate)
    (hn : 1 ≤ n) : round2 (p * (rate / 100 / 12)) ≤ getPayment p rate n := by
  by_cases hrz : rate / 100 / 12 = 0
  · rw [hrz, mul_zero, round2_zero, getPayment_zero_rate p rate hrz hn]
    apply round2_nonneg
    have hnq : (0 : ℚ) < (n : ℚ) := by exact_mod_cast lt_of_lt_of_le one_pos hn
    positivity
  · rw [getPayment_pos_rate p rate hrz hn]
    apply round2_mono
    have hrpos : 0 < rate / 100 / 12 :=
      lt_of_le_of_ne (by positivity) (Ne.symm hrz)
    have hn0 : (0 : ℤ) ≤ n := by omega
    have hzpow : (1 + rate / 100 / 12) ^ (-n) =
        ((1 + rate / 100 / 12) ^ n.toNat)⁻¹ := by
      rw [show -n = -(n.toNat : ℤ) by omega, zpow_neg, zpow_natCast]
    rw [hzpow]
    have hkne : n.toNat ≠ 0 := by omega
    have hgt : 1 < (1 + rate / 100 / 12) ^ n.toNat :=
      one_lt_pow₀ (by linarith) hkne
    have ht0 : 0 < ((1 + rate / 100 / 12) ^ n.toNat)⁻¹ := by positivity
    have ht1 : ((1 + rate / 100 / 12) ^ n.toNat)⁻¹ < 1 := by
      rw [inv_lt_one_iff₀]
      right
      exact hgt
    have hd0 : 0 < 1 - ((1 + rate / 100 / 12) ^ n.toNat)⁻¹ := by linarith
    rw [le_div_iff₀ hd0]
    have hpr : 0 ≤ p * (rate / 100 / 12) := by positivity
    nlinarith

theorem build_schedule_eq_ok (p rate : ℚ) {n : ℤ} (hn : 1 ≤ n) :
    build_schedule p rate n = .ok (getRows p rate n, getSummary p rate n) := by
  unfold build_schedule
  rw [annuity_payment_eq_ok p rate hn]
  rw [getSummary_eq p rate hn, getRows_eq p rate hn]
  rfl

/-! ## The claims -/

/-- C1: for every principal > 0, rate > 0 and term ≥ 1, `annuity_payment`
returns `round(principal * r / (1 - (1 + r) ** (-months)), 2)` with
`r = rate / 100 / 12`; in particular principal 100000, rate 12 and term
12 give the payment 8884.88. -/
theorem annuity_payment_formula (p rate : ℚ) (n : ℤ) (hp : 0 < p) (hr : 0 < rate)
    (hn : 1 ≤ n) :
    annuity_payment p rate n =
      .ok (round2 (p * (rate / 100 / 12) / (1 - (1 + rate / 100 / 12) ^ (-n)))) ∧
    annuity_payment 100000 12 12 = .ok (888488 / 100) := by
  constructor
  · have h : ¬ n ≤ 0 := by omega
    have hrz : rate / 100 / 12 ≠ 0 := by positivity
    unfold annuity_payment
    simp [h, hrz]
  · decide

theorem annuity_payment_formula_witness :
    (0 : ℚ) < 100000 ∧ (0 : ℚ) < 12 ∧ (1 : ℤ) ≤ 12 ∧
    (annuity_payment 100000 12 12 =
      .ok (round2 (100000 * ((12 : ℚ) / 100 / 12) /
        (1 - (1 + (12 : ℚ) / 100 / 12) ^ (-(12 : ℤ))))) ∧
     annuity_payment 100000 12 12 = .ok (888488 / 100)) :=
  ⟨by norm_num, by norm_num, by norm_num,
   annuity_payment_formula 100000 12 12 (by norm_num) (by norm_num) (by norm_num)⟩

/-- C2: for every valid loan input the final row — and only the final
row — has its principal part forced to the rounded remaining balance
(`balBefore` replays the non-final balance updates), its payment
recomputed as principal part plus interest, and its displayed remaining
balance exactly 0; every earlier row keeps the annuity payment and the
`round(payment - interest, 2)` principal split. -/
theorem final_row_adjustment (p rate : ℚ) (n : ℤ) (hp : 0 < p) (hr : 0 ≤ rate)
    (hn : 1 ≤ n) :
    (getRows p rate n).getLast? =
      some ⟨n.toNat,
        round2 (balBefore (rate / 100 / 12) (getPayment p rate n) n.toNat p) +
          round2 (balBefore (rate / 100 / 12) (getPayment p rate n) n.toNat p *
            (rate / 100 / 12)),
        round2 (balBefore (rate / 100 / 12) (getPayment p rate n) n.toNat p *
          (rate / 100 / 12)),
        round2 (balBefore (rate / 100 / 12) (getPayment p rate n) n.toNat p),
        0⟩ ∧
    ∀ row ∈ (getRows p rate n).dropLast,
      row.payment = getPayment p rate n ∧
      row.principal_part = round2 (getPayment p rate n - row.interest) := by
  constructor
  · obtain ⟨k, hk⟩ : ∃ k, n.toNat = k + 1 := ⟨n.toNat - 1, by omega⟩
    rw [getRows_eq p rate hn, hk, getLast_scheduleRowsAux]
    rw [round2_twoDec ((twoDec_round2 _).add (twoDec_round2 _))]
    rw [round2_self_sub, max_self]
    rw [show 1 + k = k + 1 from by omega]
  · intro row hmem
    rw [getRows_eq p rate hn] at hmem
    have h := mem_dropLast_scheduleRowsAux _ _ _ _ _ row hmem
    exact ⟨h.1, h.2.1⟩

set_option maxRecDepth 8000 in
theorem final_row_adjustment_witness :
    (0 : ℚ) < 12000 ∧ (0 : ℚ) ≤ 0 ∧ (1 : ℤ) ≤ 12 ∧
    (getRows 12000 0 12).getLast? =
      some ⟨(12 : ℤ).toNat,
        round2 (balBefore ((0 : ℚ) / 100 / 12) (getPayment 12000 0 12) (12 : ℤ).toNat 12000) +
          round2 (balBefore ((0 : ℚ) / 100 / 12) (getPayment 12000 0 12) (12 : ℤ).toNat 12000 *
            ((0 : ℚ) / 100 / 12)),
        round2 (balBefore ((0 : ℚ) / 100 / 12) (getPayment 12000 0 12) (12 : ℤ).toNat 12000 *
          ((0 : ℚ) / 100 / 12)),
        round2 (balBefore ((0 : ℚ) / 100 / 12) (getPayment 12000 0 12) (12 : ℤ).toNat 12000),
        0⟩ :=
  ⟨by norm_num, by norm_num, by norm_num,
   (final_row_adjustment 12000 0 12 (by norm_num) (by norm_num) (by norm_num)).1⟩

/-- C3: for every principal > 0, rate ≥ 0 and term ≥ 1, the principal
parts of the schedule sum to the input principal within the tolerance
`termMonths * 0.01` (in fact they sum exactly to `round2 principal`). -/
theorem principal_sum_tolerance (p rate : ℚ) (n : ℤ) (hp : 0 < p) (hr : 0 ≤ rate)
    (hn : 1 ≤ n) :
    |((getRows p rate n).map (fun row => row.principal_part)).sum - p| ≤
      (n : ℚ) * (1 / 100) := by
  rw [getRows_eq p rate hn]
  obtain ⟨k, hk⟩ : ∃ k, n.toNat = k + 1 := ⟨n.toNat - 1, by omega⟩
  rw [hk, sum_principal_scheduleRowsAux]
  have h1 := abs_round2_sub_le p
  have h2 : (1 : ℚ) ≤ (n : ℚ) := by exact_mod_cast hn
  have h3 := abs_nonneg (round2 p - p)
  linarith

set_option maxRecDepth 8000 in
theorem principal_sum_tolerance_witness :
    (0 : ℚ) < 12000 ∧ (0 : ℚ) ≤ 0 ∧ (1 : ℤ) ≤ 12 ∧
    |((getRows 12000 0 12).map (fun row => row.principal_part)).sum - 12000| ≤
      ((12 : ℤ) : ℚ) * (1 / 100) :=
  ⟨by norm_num, by norm_num, by norm_num,
   principal_sum_tolerance 12000 0 12 (by norm_num) (by norm_num) (by norm_num)⟩

/-- C4: for every valid loan input and every row except the last, the
2-decimal values satisfy `interest + principal_part = payment`
exactly. -/
theorem row_split_exact (p rate : ℚ) (n : ℤ) (hp : 0 < p) (hr : 0 ≤ rate)
    (hn : 1 ≤ n) :
    ∀ row ∈ (getRows p rate n).dropLast,
      row.interest + row.principal_part = row.payment := by
  intro row hmem
  rw [getRows_eq p rate hn] at hmem
  obtain ⟨hpayEq, hppEq, hTD⟩ := mem_dropLast_scheduleRowsAux _ _ _ _ _ row hmem
  rw [hppEq, hpayEq]
  rw [round2_twoDec ((twoDec_getPayment p rate hn).sub hTD)]
  ring

set_option maxRecDepth 8000 in
theorem row_split_exact_witness :
    (0 : ℚ) < 12000 ∧ (0 : ℚ) ≤ 0 ∧ (1 : ℤ) ≤ 12 ∧
    (⟨1, 1000, 0, 1000, 11000⟩ : ScheduleRow) ∈ (getRows 12000 0 12).dropLast ∧
    (⟨1, 1000, 0, 1000, 11000⟩ : ScheduleRow).interest +
      (⟨1, 1000, 0, 1000, 11000⟩ : ScheduleRow).principal_part =
      (⟨1, 1000, 0, 1000, 11000⟩ : ScheduleRow).payment :=
  ⟨by norm_num, by norm_num, by norm_num, by decide,
   row_split_exact 12000 0 12 (by norm_num) (by norm_num) (by norm_num)
     ⟨1, 1000, 0, 1000, 11000⟩ (by decide)⟩

/-- C5: a non-positive term makes both `annuity_payment` and
`build_schedule` fail with the invalid-term error (no rows are
produced), while a term ≥ 1 makes both succeed. -/
theorem invalid_term_error (p rate : ℚ) (n : ℤ) :
    (n ≤ 0 → annuity_payment p rate n = .error invalidTermMsg ∧
      build_schedule p rate n = .error invalidTermMsg) ∧
    (1 ≤ n → annuity_payment p rate n = .ok (getPayment p rate n) ∧
      build_schedule p rate n = .ok (getRows p rate n, getSummary p rate n)) := by
  constructor
  · intro h
    have h1 : annuity_payment p rate n = .error invalidTermMsg := by
      unfold annuity_payment
      simp [h]
    refine ⟨h1, ?_⟩
    unfold build_schedule
    rw [h1]
    rfl
  · intro h
    exact ⟨annuity_payment_eq_ok p rate h, build_schedule_eq_ok p rate h⟩

set_option maxRecDepth 8000 in
theorem invalid_term_error_witness :
    ((0 : ℤ) ≤ 0 ∧ annuity_payment 100000 12 0 = .error invalidTermMsg ∧
      build_schedule 100000 12 0 = .error invalidTermMsg) ∧
    ((1 : ℤ) ≤ 12 ∧ annuity_payment 12000 0 12 = .ok (getPayment 12000 0 12) ∧
      build_schedule 12000 0 12 = .ok (getRows 12000 0 12, getSummary 12000 0 12)) :=
  ⟨⟨by norm_num, (invalid_term_error 100000 12 0).1 (by norm_num)⟩,
   ⟨by norm_num, (invalid_term_error 12000 0 12).2 (by norm_num)⟩⟩

/-- C6 (counterexample): the claim that the displayed remaining balance
is monotonically non-increasing for every valid loan input fails at
principal 0.455, rate 12000 %, term 3: the displayed balances are
0.46, 0.51, 0, which increase from the first to the second row. -/
theorem balance_monotone_cex :
    (0 : ℚ) < 455 / 1000 ∧ (0 : ℚ) ≤ 12000 ∧ (1 : ℤ) ≤ 3 ∧
    (getRows (455 / 1000) 12000 3).map (fun row => row.balance) =
      [46 / 100, 51 / 100, 0] ∧
    ¬ Nonincreasing ((getRows (455 / 1000) 12000 3).map (fun row => row.balance)) := by
  have h : (getRows (455 / 1000) 12000 3).map (fun row => row.balance) =
      [46 / 100, 51 / 100, 0] := by decide
  refine ⟨by norm_num, by norm_num, by norm_num, h, ?_⟩
  rw [Nonincreasing, h]
  simp only [List.chain'_cons, List.chain'_singleton, and_true, ge_iff_le, not_and_or,
    not_le]
  left
  norm_num

/-- C6 (amended): for every valid loan input every displayed remaining
balance is ≥ 0 (it is floored at 0), and when the principal is
additionally a whole number of cents (`round2 p = p`) the displayed
remaining balances are monotonically non-increasing.  (The unrestricted
monotonicity claim is refuted by `balance_monotone_cex`.) -/
theorem balance_monotone_amended (p rate : ℚ) (n : ℤ) (hp : 0 < p) (hr : 0 ≤ rate)
    (hn : 1 ≤ n) :
    (∀ row ∈ getRows p rate n, 0 ≤ row.balance) ∧
    (round2 p = p →
      Nonincreasing ((getRows p rate n).map (fun row => row.balance))) := by
  constructor
  · intro row hmem
    rw [getRows_eq p rate hn] at hmem
    exact balance_nonneg_scheduleRowsAux _ _ _ _ _ row hmem
  · intro hcent
    have hTD : TwoDec p := by
      rw [← hcent]
      exact twoDec_round2 p
    have hr' : 0 ≤ rate / 100 / 12 := by positivity
    have hpayTD := twoDec_getPayment p rate hn
    have hint := first_interest_le_getPayment p rate hp hr hn
    rw [Nonincreasing, getRows_eq p rate hn]
    exact (chain_balance_scheduleRowsAux (rate / 100 / 12) (getPayment p rate n)
      hr' hpayTD n.toNat 1 p hTD hint).1

set_option maxRecDepth 8000 in
theorem balance_monotone_amended_witness :
    ((0 : ℚ) < 455 / 1000 ∧ (0 : ℚ) ≤ 12000 ∧ (1 : ℤ) ≤ 3 ∧
      0 ≤ (⟨2, 91 / 20, 23 / 5, -1 / 20, 51 / 100⟩ : ScheduleRow).balance) ∧
    ((0 : ℚ) < 12000 ∧ (0 : ℚ) ≤ 0 ∧ (1 : ℤ) ≤ 12 ∧ round2 12000 = 12000 ∧
      Nonincreasing ((getRows 12000 0 12).map (fun row => row.balance))) :=
  ⟨⟨by norm_num, by norm_num, by norm_num,
    (balance_monotone_amended (455 / 1000) 12000 3 (by norm_num) (by norm_num)
      (by norm_num)).1 ⟨2, 91 / 20, 23 / 5, -1 / 20, 51 / 100⟩ (by decide)⟩,
   ⟨by norm_num, by norm_num, by norm_num, by decide,
    (balance_monotone_amended 12000 0 12 (by norm_num) (by norm_num) (by norm_num)).2
      (by decide)⟩⟩

/-- C7: with rate 0 and term ≥ 1 the payment is
`round(principal / termMonths, 2)` computed by the zero-rate branch,
every row's interest is 0, every non-final row's principal part equals
that payment, and principal 12000 over 12 months gives 1000.00. -/
theorem zero_rate_schedule (p : ℚ) (n : ℤ) (hp : 0 < p) (hn : 1 ≤ n) :
    annuity_payment p 0 n = .ok (round2 (p / (n : ℚ))) ∧
    (∀ row ∈ getRows p 0 n, row.interest = 0) ∧
    (∀ row ∈ (getRows p 0 n).dropLast,
      row.principal_part = round2 (p / (n : ℚ))) ∧
    annuity_payment 12000 0 12 = .ok 1000 := by
  have hrz : (0 : ℚ) / 100 / 12 = 0 := by norm_num
  have hpay0 : getPayment p 0 n = round2 (p / (n : ℚ)) :=
    getPayment_zero_rate p 0 hrz hn
  refine ⟨?_, ?_, ?_, by decide⟩
  · rw [annuity_payment_eq_ok p 0 hn, hpay0]
  · intro row hmem
    rw [getRows_eq p 0 hn, hrz] at hmem
    exact interest_zero_scheduleRowsAux _ _ _ _ row hmem
  · intro row hmem
    rw [getRows_eq p 0 hn] at hmem
    have hsplit := mem_dropLast_scheduleRowsAux _ _ _ _ _ row hmem
    have hmem' := List.dropLast_subset _ hmem
    have hz : row.interest = 0 := by
      rw [hrz] at hmem'
      exact interest_zero_scheduleRowsAux _ _ _ _ row hmem'
    rw [hsplit.2.1, hz, sub_zero, round2_twoDec (twoDec_getPayment p 0 hn), hpay0]

set_option maxRecDepth 8000 in
theorem zero_rate_schedule_witness :
    (0 : ℚ) < 12000 ∧ (1 : ℤ) ≤ 12 ∧
    annuity_payment 12000 0 12 = .ok (round2 ((12000 : ℚ) / ((12 : ℤ) : ℚ))) ∧
    (⟨2, 1000, 0, 1000, 10000⟩ : ScheduleRow).interest = 0 ∧
    (⟨2, 1000, 0, 1000, 10000⟩ : ScheduleRow).principal_part =
      round2 ((12000 : ℚ) / ((12 : ℤ) : ℚ)) :=
  ⟨by norm_num, by norm_num,
   (zero_rate_schedule 12000 12 (by norm_num) (by norm_num)).1,
   (zero_rate_schedule 12000 12 (by norm_num) (by norm_num)).2.1
     ⟨2, 1000, 0, 1000, 10000⟩ (by decide),
   (zero_rate_schedule 12000 12 (by norm_num) (by norm_num)).2.2.1
     ⟨2, 1000, 0, 1000, 10000⟩ (by decide)⟩

/-- C8: the schedule is fixed-payment: every row but the last carries
exactly the annuity payment, and the summary's monthly-payment field is
that same value. -/
theorem fixed_payment_schedule (p rate : ℚ) (n : ℤ) (hp : 0 < p) (hr : 0 ≤ rate)
    (hn : 1 ≤ n) :
    (∀ row ∈ (getRows p rate n).dropLast, row.payment = getPayment p rate n) ∧
    (getSummary p rate n).monthlyPayment = getPayment p rate n := by
  constructor
  · intro row hmem
    rw [getRows_eq p rate hn] at hmem
    exact (mem_dropLast_scheduleRowsAux _ _ _ _ _ row hmem).1
  · rw [getSummary_eq p rate hn]

set_option maxRecDepth 8000 in
theorem fixed_payment_schedule_witness :
    (0 : ℚ) < 12000 ∧ (0 : ℚ) ≤ 0 ∧ (1 : ℤ) ≤ 12 ∧
    (⟨1, 1000, 0, 1000, 11000⟩ : ScheduleRow).payment = getPayment 12000 0 12 ∧
    (getSummary 12000 0 12).monthlyPayment = getPayment 12000 0 12 :=
  ⟨by norm_num, by norm_num, by norm_num,
   (fixed_payment_schedule 12000 0 12 (by norm_num) (by norm_num) (by norm_num)).1
     ⟨1, 1000, 0, 1000, 11000⟩ (by decide),
   (fixed_payment_schedule 12000 0 12 (by norm_num) (by norm_num) (by norm_num)).2⟩

/-- C9: the delimited-text export starts with the UTF-8 byte-order
mark, consists of exactly six labeled summary records, one blank
separator record, one column-header record and then one record per
period in order, and every record is written with `;`-separated fields
and a trailing line break. -/
theorem csv_export_structure (rows : List ScheduleRow) (s : ScheduleSummary) :
    schedule_csv_bytes rows s =
      "\uFEFF" ++ String.join ((schedule_csv_records rows s).map csv_record_line) ∧
    (schedule_csv_records rows s).length = 8 + rows.length ∧
    (schedule_csv_records rows s).take 8 =
      [["Сумма кредита", float_str s.principal],
       ["Ставка, % годовых", float_str s.rate],
       ["Срок, мес", Int.repr s.months],
       ["Ежемесячный платеж", float_str s.monthlyPayment],
       ["Итого процентов", float_str s.totalInterest],
       ["Итого выплат", float_str s.totalPaid],
       [],
       ["Месяц", "Платеж", "Проценты", "Тело", "Остаток"]] ∧
    (schedule_csv_records rows s).drop 8 =
      rows.map (fun row =>
        [Nat.repr row.month, float_str row.payment, float_str row.interest,
         float_str row.principal_part, float_str row.balance]) ∧
    (schedule_csv_records rows s).map csv_record_line =
      (schedule_csv_records rows s).map
        (fun rec => String.intercalate ";" (rec.map csvField) ++ "\r\n") := by
  refine ⟨rfl, ?_, rfl, rfl, rfl⟩
  simp only [schedule_csv_records, List.length_append, List.length_map, List.length_cons,
    List.length_nil]

/-- C10: every numeric cell of the delimited-text export — the six
summary values as well as the per-period payment, interest, principal
and balance — is the default decimal rendering of the stored value with
no two-decimal padding (1000 is emitted as "1000.0", a raw rate 12.345
as "12.345"), while the contract document's amortization table pads
every amount to exactly two decimals (1000 becomes "1000.00"). -/
theorem csv_plain_decimal_cells :
    float_str 1000 = "1000.0" ∧ fixed2 1000 = "1000.00" ∧
    float_str ((12345 : ℚ) / 1000) = "12.345" ∧
    (∀ (rows : List ScheduleRow) (s : ScheduleSummary),
      (schedule_csv_records rows s).take 6 =
        [["Сумма кредита", float_str s.principal],
         ["Ставка, % годовых", float_str s.rate],
         ["Срок, мес", Int.repr s.months],
         ["Ежемесячный платеж", float_str s.monthlyPayment],
         ["Итого процентов", float_str s.totalInterest],
         ["Итого выплат", float_str s.totalPaid]]) ∧
    (∀ (rows : List ScheduleRow) (s : ScheduleSummary),
      (schedule_csv_records rows s).drop 8 =
        rows.map (fun row =>
          [Nat.repr row.month, float_str row.payment, float_str row.interest,
           float_str row.principal_part, float_str row.balance])) ∧
    (∀ rows : List ScheduleRow,
      contract_table_data rows =
        ["Mes", "Pago", "Interés", "Principal", "Saldo"] ::
        rows.map (fun row =>
          [Nat.repr row.month, fixed2 row.payment, fixed2 row.interest,
           fixed2 row.principal_part, fixed2 row.balance])) ∧
    (schedule_csv_records (getRows 12000 0 12) (getSummary 12000 0 12)).take 6 =
      [["Сумма кредита", "12000.0"], ["Ставка, % годовых", "0.0"],
       ["Срок, мес", "12"], ["Ежемесячный платеж", "1000.0"],
       ["Итого процентов", "0.0"], ["Итого выплат", "12000.0"]] ∧
    (schedule_csv_records (getRows 100000 (25 / 2) 12)
        (getSummary 100000 (25 / 2) 12)).get? 1 =
      some ["Ставка, % годовых", "12.5"] ∧
    ((schedule_csv_records (getRows 12000 0 12) (getSummary 12000 0 12)).drop 8).head? =
      some ["1", "1000.0", "0.0", "1000.0", "11000.0"] ∧
    (contract_table_data (getRows 12000 0 12)).get? 1 =
      some ["1", "1000.00", "0.00", "1000.00", "11000.00"] := by
  refine ⟨by decide, by decide, by decide, fun rows s => rfl, fun rows s => rfl,
    fun rows => rfl, ?_, ?_, ?_, ?_⟩
  · decide
  · decide
  · decide
  · decide

end LoanBot
